import Mathlib

/-!
Shallow embedding of pyhomekit/ble.py, the controller-side HAP-BLE transport
binding.  Bytes are modelled as natural numbers below 256 inside `List Nat`;
Python exceptions become explicit error values of `HapError`; object mutation
(header continuation flag, cached attributes on a characteristic handle) is
modelled by threading explicit state values.  Definitions follow the source
line by line; the few collaborators that live outside the provided source
(`pyhomekit.constants`, `pyhomekit.utils`, the tenacity retry library) are
modelled from their specified contracts and say so in their doc comments.
-/

namespace PyHomekit

/-- Little-endian two-byte encoding of a length, mirroring pack of an
unsigned 16-bit integer as used for the PDU body-length field. -/
def pack_u16le (n : Nat) : List Nat := [n % 256, n / 256 % 256]

/-- Modelled from the spec: pyhomekit.constants is not under src.  The spec
fixes a closed status enumeration with a distinguished Success code carried
in the third byte of every response header; the representative value 0 is
used here, and no claim depends on the concrete value. -/
def HapBleStatusCodes.Success : Nat := 0

/-- HapBlePduHeader.control_field_bits: the control byte written as a list of
bits, most significant first, exactly as the source formats the bit string
with continuation at bit 7, response at bit 1 and every other bit zero. -/
def control_field_bits (response continuation : Bool) : List Nat :=
  [if continuation then 1 else 0, 0, 0, 0, 0, 0, if response then 1 else 0, 0]

/-- HapBlePduHeader.control_field: the bit string read as a base-2 numeral. -/
def control_field (response continuation : Bool) : Nat :=
  (control_field_bits response continuation).foldl (fun acc b => 2 * acc + b) 0

/-- HapBlePduRequestHeader.  The transaction identifier is generated once
(lazily, from a system random source) and then held fixed; it is modelled as
the already-generated 8-bit value. -/
structure HapBlePduRequestHeader where
  cid_sid : List Nat
  op_code : Nat
  response : Bool := false
  continuation : Bool := false
  transaction_id : Nat
deriving DecidableEq, Repr

/-- HapBlePduRequestHeader.data: the two-byte continuation form
[control, tid], or the full form [control, opcode, tid] ++ cid_sid. -/
def HapBlePduRequestHeader.data (h : HapBlePduRequestHeader) : List Nat :=
  if h.continuation then
    [control_field h.response h.continuation, h.transaction_id]
  else
    [control_field h.response h.continuation, h.op_code, h.transaction_id] ++ h.cid_sid

/-- Error values for the Python exceptions raised by ble.py: struct.error
from unpack on too-few bytes (`unpackError`), the ValueError for a control
byte with reserved bits set (`malformedHeader`), the ValueError for a clear
isResponse bit (`invalidResponse`), the ValueError for a transaction-id
mismatch (`transactionMismatch`), HapBleError carrying a non-success status
(`protocolStatusError`), the ValueError for a body-length mismatch
(`lengthMismatch`), the NotImplementedError for a continued response
(`notSupported`), the HapBleError for a TLV whose value is shorter than its
declared length (`invalidTlvLength`), a failed constants-table lookup
(`keyError`), Python TypeError from adding incompatible attribute values
(`typeError`), the HapBleError for a pairing response without a value
(`pairingError`), and fuel exhaustion of the modelled fragment loop
(`nonTermination`, where the Python generator would loop forever). -/
inductive HapError
  | unpackError
  | malformedHeader
  | invalidResponse
  | transactionMismatch
  | protocolStatusError (code : Nat)
  | lengthMismatch
  | notSupported
  | invalidTlvLength
  | keyError
  | typeError
  | pairingError
  | nonTermination
deriving DecidableEq, Repr

/-- HapBlePduResponseHeader: status code, transaction id and the two control
flags recovered from the control byte. -/
structure HapBlePduResponseHeader where
  status_code : Nat
  transaction_id : Nat
  continuation : Bool
  response : Bool
deriving DecidableEq, Repr

/-- The reserved-bit test of HapBlePduResponseHeader.from_data: the source
reverses the bit string and requires position 0 and positions 2 through 6 to
be '0'. -/
def reserved_bits_set (c : Nat) : Bool :=
  c.testBit 0 || c.testBit 2 || c.testBit 3 || c.testBit 4 || c.testBit 5 || c.testBit 6

/-- HapBlePduResponseHeader.from_data: unpack the first three bytes (a
struct.error if fewer are available), read continuation from bit 7 and
response from bit 1, and reject any set reserved bit with a ValueError. -/
def HapBlePduResponseHeader.from_data (data : List Nat) :
    Except HapError HapBlePduResponseHeader :=
  match data with
  | c :: t :: s :: _ =>
    if reserved_bits_set c then .error .malformedHeader
    else .ok ⟨s, t, c.testBit 7, c.testBit 1⟩
  | _ => .error .unpackError

/-- HapCharacteristic._check_read_response: decode the response header, then
validate in order isResponse bit, transaction id, status code, and — only
when more than three bytes were read — the declared little-endian body
length against the actual remaining bytes (a struct.error when the length
field itself is incomplete). -/
def check_read_response (reqTid : Nat) (response : List Nat) :
    Except HapError HapBlePduResponseHeader :=
  match HapBlePduResponseHeader.from_data response with
  | .error e => .error e
  | .ok h =>
    if h.response = false then .error .invalidResponse
    else if h.transaction_id ≠ reqTid then .error .transactionMismatch
    else if h.status_code ≠ HapBleStatusCodes.Success then
      .error (.protocolStatusError h.status_code)
    else if 3 < response.length then
      match response.drop 3 with
      | b0 :: b1 :: _ =>
        if (response.drop 5).length ≠ b0 + 256 * b1 then .error .lengthMismatch
        else .ok h
      | _ => .error .unpackError
    else .ok h

/-- Modelled from the spec: prepare_tlv lives in pyhomekit.utils, which is
not under src.  Contract (spec section 6): an ordered sequence of wire
chunks, each with its own [tag, length, bytes] framing and at most 255 value
bytes; values longer than 255 bytes are split across chunks sharing one
tag. -/
def prepare_tlv_fuel (param_type : Nat) : Nat → List Nat → List (List Nat)
  | 0, value => [[param_type, value.length] ++ value]
  | fuel + 1, value =>
    if value.length ≤ 255 then [[param_type, value.length] ++ value]
    else ([param_type, 255] ++ value.take 255) ::
      prepare_tlv_fuel param_type fuel (value.drop 255)

/-- prepare_tlv proper: the fuel value.length always suffices, since each
recursive step removes 255 bytes. -/
def prepare_tlv (param_type : Nat) (value : List Nat) : List (List Nat) :=
  prepare_tlv_fuel param_type value.length value

/-- The chunk list prepared by fragment_tlvs (and HapBlePdu.raw_data): each
(type, value) pair expanded through prepare_tlv, in order. -/
def prepared_tlvs (TLVs : List (Nat × List Nat)) : List (List Nat) :=
  TLVs.flatMap (fun tv => prepare_tlv tv.1 tv.2)

/-- The inner packing loop of fragment_tlvs: greedily append whole chunks to
fragment_data while the next chunk keeps the chunk-byte total strictly below
512; returns the packed bytes and the chunks left over. -/
def fragment_fill (chunks : List (List Nat)) (fragment_data : List Nat) :
    List Nat × List (List Nat) :=
  match chunks with
  | [] => (fragment_data, [])
  | c :: rest =>
    if fragment_data.length + c.length < 512 then
      fragment_fill rest (fragment_data ++ c)
    else (fragment_data, c :: rest)

/-- The outer loop of fragment_tlvs, with explicit fuel standing in for the
Python while-loop (which yields empty fragments forever when fragment_fill
packs no chunk): each iteration emits header bytes + 2-byte length + packed
chunk bytes and then sets the header's continuation flag, mirroring the
in-place mutation of the request header object. -/
def fragment_loop : Nat → HapBlePduRequestHeader → List (List Nat) →
    Option (List (List Nat) × HapBlePduRequestHeader)
  | _, header, [] => some ([], header)
  | 0, _, _ :: _ => none
  | fuel + 1, header, c :: rest =>
    let fill := fragment_fill (c :: rest) []
    let data := header.data ++ pack_u16le fill.1.length ++ fill.1
    match fragment_loop fuel { header with continuation := true } fill.2 with
    | none => none
    | some (frags, hf) => some (data :: frags, hf)

/-- fragment_tlvs: prepare the TLV chunks; when header + 2-byte length field
+ body fit within 512 bytes, emit the single unfragmented write; otherwise
run the greedy packing loop (fuel = number of chunks, enough whenever every
chunk itself fits). -/
def fragment_tlvs (header : HapBlePduRequestHeader)
    (TLVs : List (Nat × List Nat)) :
    Option (List (List Nat) × HapBlePduRequestHeader) :=
  let chunks := prepared_tlvs TLVs
  let body_concat := chunks.flatten
  if header.data.length + 2 + body_concat.length ≤ 512 then
    some ([header.data ++ pack_u16le body_concat.length ++ body_concat], header)
  else fragment_loop chunks.length header chunks

/-- HapCharacteristic._request: with an empty body the bare header bytes are
written in one transport write; otherwise every fragment produced by
fragment_tlvs is written in order.  Returns the transport writes plus the
request header as left after the call (fragment_tlvs mutates it). -/
def hap_request (header : HapBlePduRequestHeader)
    (body : List (Nat × List Nat)) :
    Option (List (List Nat) × HapBlePduRequestHeader) :=
  if body.isEmpty then some ([header.data], header)
  else fragment_tlvs header body

/-- The fragment byte strings determined by a header and the groups of whole
chunks packed into each fragment: the first fragment uses the header as
given, every later one the continuation form. -/
def assemble_frags (header : HapBlePduRequestHeader) :
    List (List (List Nat)) → List (List Nat)
  | [] => []
  | g :: gs =>
    (header.data ++ pack_u16le g.flatten.length ++ g.flatten) ::
      assemble_frags { header with continuation := true } gs

/-- Modelled from the spec: the converters of pyhomekit.constants (absent
from src) decode value bytes into typed attribute values; the identity
converter is the characteristic's initial hap_format_converter, a format
converter is selected by a presentation-format descriptor, and every other
converter is the protocol-wide one keyed by parameter name.  Byte-level
decoding is modelled as byte-preserving, on which no claim depends. -/
inductive HapConverter
  | identity
  | format (formatName : String)
  | named (paramName : String)
deriving DecidableEq, Repr

/-- An attribute value as produced by _parse_response: decoded bytes, a
symbolic name, or a stored converter. -/
inductive AttrValue
  | bytes (b : List Nat)
  | symbol (s : String)
  | conv (c : HapConverter)
deriving DecidableEq, Repr

/-- Applying a converter to value bytes (modelled byte-preserving). -/
def HapConverter.run : HapConverter → List Nat → AttrValue
  | _, b => .bytes b

/-- Python value addition as used when a parameter name recurs within one
response: bytes and strings concatenate, anything else is a TypeError. -/
def AttrValue.add : AttrValue → AttrValue → Except HapError AttrValue
  | .bytes a, .bytes b => .ok (.bytes (a ++ b))
  | .symbol a, .symbol b => .ok (.symbol (a ++ b))
  | _, _ => .error .typeError

/-- Modelled from the spec: HAP_param_type_code_to_name of
pyhomekit.constants (absent from src) resolves a TLV tag to a parameter
name; only the names the driver treats specially, plus the generic Value
tag, are modelled, under representative codes. -/
def HAP_param_type_code_to_name (code : Nat) : Option String :=
  match code with
  | 1 => some "Value"
  | 9 => some "Return_Response"
  | 12 => some "GATT_Presentation_Format_Descriptor"
  | 13 => some "GATT_Valid_Range"
  | 14 => some "HAP_Step_Value_Descriptor"
  | _ => none

/-- Modelled from the spec: format codes resolve to symbolic format names. -/
def format_code_to_name (code : Nat) : Option String :=
  match code with
  | 1 => some "bool"
  | 4 => some "uint8"
  | 25 => some "string"
  | _ => none

/-- Modelled from the spec: unit codes resolve to symbolic unit names. -/
def unit_code_to_name (code : Nat) : Option String :=
  match code with
  | 0 => some "unitless"
  | 1 => some "celsius"
  | _ => none

/-- The mutable attribute state of a HapCharacteristic handle: the format
converter established by a presentation-format descriptor (identity right
after construction) and the attributes set on the handle by
_parse_response. -/
structure HapCharState where
  hap_format_converter : HapConverter := .identity
  cached : List (String × AttrValue) := []
deriving DecidableEq, Repr

/-- A freshly constructed characteristic handle's attribute state. -/
def initState : HapCharState := {}

/-- Insert-or-update on an association list, preserving first-insertion
order like a Python dict. -/
def upsert (l : List (String × AttrValue)) (k : String) (v : AttrValue) :
    List (String × AttrValue) :=
  match l with
  | [] => [(k, v)]
  | (k', v') :: rest =>
    if k' = k then (k, v) :: rest else (k', v') :: upsert rest k v

/-- setattr on the handle: every decoded attribute is stored, and storing a
converter under the lowercased name hap_format_converter replaces the active
format converter, which is exactly what the presentation-format branch
does. -/
def set_attr (st : HapCharState) (k : String) (v : AttrValue) : HapCharState :=
  { hap_format_converter :=
      if k = "hap_format_converter" then
        match v with
        | .conv c => c
        | _ => st.hap_format_converter
      else st.hap_format_converter,
    cached := upsert st.cached k v }

/-- Python str.lower as applied to attribute names (all ASCII), written as
a structural character map so that it evaluates by reduction. -/
def py_lower (s : String) : String := ⟨s.data.map Char.toLower⟩

/-- The attribute-accumulation loop ending each _parse_response iteration:
lowercase the key, append to a previously decoded value under the same key
(a TypeError when the two values cannot be added), store the result on the
handle and in the local attribute map.  The handle state reached so far is
returned even on error, matching the in-place setattr calls. -/
def add_new_attrs (st : HapCharState) (attributes : List (String × AttrValue)) :
    List (String × AttrValue) →
    Except HapError (List (String × AttrValue)) × HapCharState
  | [] => (.ok attributes, st)
  | (key, val) :: rest =>
    let k := py_lower key
    match (match attributes.lookup k with
           | some prior => prior.add val
           | none => .ok val) with
    | .error e => (.error e, st)
    | .ok v => add_new_attrs (set_attr st k v) (upsert attributes k v) rest

/-- Modelled from the spec: iterate_tvl of pyhomekit.utils (absent from src)
scans bytes front to back as (tag, declared length, value bytes) chunks,
taking at most the declared length of value bytes each time. -/
def iterate_tvl_fuel : Nat → List Nat → List (Nat × Nat × List Nat)
  | 0, _ => []
  | fuel + 1, resp =>
    match resp with
    | t :: l :: rest => (t, l, rest.take l) :: iterate_tvl_fuel fuel (rest.drop l)
    | _ => []

/-- iterate_tvl proper: the fuel resp.length always suffices, since each
step consumes at least the two framing bytes. -/
def iterate_tvl (resp : List Nat) : List (Nat × Nat × List Nat) :=
  iterate_tvl_fuel resp.length resp

/-- One iteration of _parse_response: check the chunk's actual length
against the declared one, resolve the tag to a name, pick the converter (the
active format converter for Value, valid-range and step-value chunks, the
fixed named converter otherwise), expand a presentation-format descriptor
into its three derived attributes, split a valid range into converted
halves, and feed the new attributes through the accumulation loop. -/
def parse_chunk (st : HapCharState) (attributes : List (String × AttrValue))
    (body_type length : Nat) (bytes_ : List Nat) :
    Except HapError (List (String × AttrValue)) × HapCharState :=
  if bytes_.length ≠ length then (.error .invalidTlvLength, st)
  else
    match HAP_param_type_code_to_name body_type with
    | none => (.error .keyError, st)
    | some name =>
      let converter : HapConverter :=
        if name = "GATT_Valid_Range" ∨ name = "HAP_Step_Value_Descriptor" ∨
            name = "Value" then st.hap_format_converter
        else .named name
      if name = "GATT_Presentation_Format_Descriptor" then
        match bytes_ with
        | format_code :: unit_code :: _ =>
          match format_code_to_name format_code, unit_code_to_name unit_code with
          | some format_name, some unit_name =>
            add_new_attrs st attributes
              [("HAP_Format", .symbol format_name),
               ("HAP_Format_Converter", .conv (.format format_name)),
               ("HAP_Unit", .symbol unit_name)]
          | _, _ => (.error .keyError, st)
        | _ => (.error .unpackError, st)
      else if name = "GATT_Valid_Range" then
        add_new_attrs st attributes
          [("min_value", converter.run (bytes_.take (bytes_.length / 2))),
           ("max_value", converter.run (bytes_.drop (bytes_.length / 2)))]
      else
        add_new_attrs st attributes [(name, converter.run bytes_)]

/-- The chunk loop of _parse_response. -/
def parse_chunks (st : HapCharState) (attributes : List (String × AttrValue)) :
    List (Nat × Nat × List Nat) →
    Except HapError (List (String × AttrValue)) × HapCharState
  | [] => (.ok attributes, st)
  | (t, l, b) :: rest =>
    match parse_chunk st attributes t l b with
    | (.error e, st') => (.error e, st')
    | (.ok attrs', st') => parse_chunks st' attrs' rest

/-- HapCharacteristic._parse_response: scan the body (the bytes after the
5-byte header + length prefix) and accumulate attributes, mutating the
handle as it goes. -/
def parse_response (st : HapCharState) (response : List Nat) :
    Except HapError (List (String × AttrValue)) × HapCharState :=
  parse_chunks st [] (iterate_tvl (response.drop 5))

/-- Decidable equality on Except values, needed to evaluate driver results
on concrete inputs. -/
instance instDecEqExceptPH {ε α : Type} [DecidableEq ε] [DecidableEq α] :
    DecidableEq (Except ε α) := fun x y =>
  match x, y with
  | .ok a, .ok b =>
    match decEq a b with
    | isTrue h => isTrue (congrArg Except.ok h)
    | isFalse h => isFalse (fun hh => h (Except.ok.inj hh))
  | .error a, .error b =>
    match decEq a b with
    | isTrue h => isTrue (congrArg Except.error h)
    | isFalse h => isFalse (fun hh => h (Except.error.inj hh))
  | .ok _, .error _ => isFalse (fun hh => Except.noConfusion hh)
  | .error _, .ok _ => isFalse (fun hh => Except.noConfusion hh)

/-- Result of a driver-level write: the parsed attribute map or the error
raised, the handle state afterwards (parsing mutates it even when the
operation then fails), the request header afterwards (fragmentation mutates
its continuation flag), and the transport writes performed. -/
structure WriteResult where
  result : Except HapError (List (String × AttrValue))
  state : HapCharState
  header : HapBlePduRequestHeader
  writes : List (List Nat)
deriving DecidableEq, Repr

/-- HapCharacteristic.write: transmit the request (one transport write per
fragment), read the response (modelled as an input), validate the response
header, parse the body, and only then fail with NotImplementedError when the
response's continuation flag is set. -/
def hap_char_write (st : HapCharState)
    (request_header : HapBlePduRequestHeader)
    (TLVs : List (Nat × List Nat)) (response : List Nat) : WriteResult :=
  match hap_request request_header TLVs with
  | none => ⟨.error .nonTermination, st, request_header, []⟩
  | some (writes, h') =>
    match check_read_response request_header.transaction_id response with
    | .error e => ⟨.error e, st, h', writes⟩
    | .ok response_header =>
      match parse_response st response with
      | (.error e, st') => ⟨.error e, st', h', writes⟩
      | (.ok attrs, st') =>
        if response_header.continuation then
          ⟨.error .notSupported, st', h', writes⟩
        else ⟨.ok attrs, st', h', writes⟩

/-- HapCharacteristic.read: a write with the empty parameter list. -/
def hap_char_read (st : HapCharState)
    (request_header : HapBlePduRequestHeader) (response : List Nat) :
    WriteResult :=
  hap_char_write st request_header [] response

/-- Modelled from the spec: the numeric kTLV tag for FragmentData inside
pairing payloads (pyhomekit.constants is absent from src); the exchange
depends only on its identity, not on its value. -/
def kTLVType_FragmentData_code : Nat := 12

/-- The outcome of parse_ktlvs on one pairing-round value (parse_ktlvs of
pyhomekit.utils is absent from src): whether the parsed dict carries a
kTLVType_FragmentData or kTLVType_FragmentLast entry, plus its other
entries.  Membership of the two fragment keys is what the loop branches on,
FragmentData first. -/
structure KtlvDict where
  fragmentData : Option (List Nat) := none
  fragmentLast : Option (List Nat) := none
  others : List (String × List Nat) := []
deriving DecidableEq, Repr

/-- One accessory round as the pairing loop sees it: either the write result
had no value attribute, or it did and the value parsed to the given dict. -/
inductive KtlvRound
  | noValue
  | withValue (d : KtlvDict)
deriving DecidableEq, Repr

/-- What write_ktlvs returns: the reassembled fragment bytes (the assembled
dict holds them under kTLVType_FragmentData) or an unfragmented response
dict passed through unchanged. -/
inductive KtlvOutcome
  | fragments (b : List Nat)
  | complete (d : KtlvDict)
deriving DecidableEq, Repr

/-- Errors of the pairing loop: a round whose result has no value attribute
(HapBleError, no ktlvs received), the KeyError from reading the assembled
FragmentData entry before any FragmentData round happened, and running out
of accessory rounds (the Python loop would block on a further write). -/
inductive KtlvError
  | pairingError
  | keyError
  | outOfRounds
deriving DecidableEq, Repr

/-- The write_ktlvs loop over accessory-driven rounds: each round sends the
current kTLV list (recorded in the returned trace), appends FragmentData
bytes to the accumulator and queues one empty FragmentData kTLV for the next
round, and on FragmentLast reads the accumulator — the KeyError when no
FragmentData round preceded — appends the last bytes and stops; any other
dict is returned unchanged. -/
def write_ktlvs_go (ktlvs : List (Nat × List Nat)) (acc : Option (List Nat)) :
    List KtlvRound → Except KtlvError KtlvOutcome × List (List (Nat × List Nat))
  | [] => (.error .outOfRounds, [])
  | round :: rest =>
    match round with
    | .noValue => (.error .pairingError, [ktlvs])
    | .withValue d =>
      match d.fragmentData with
      | some x =>
        let next := write_ktlvs_go [(kTLVType_FragmentData_code, [])]
          (some (acc.getD [] ++ x)) rest
        (next.1, ktlvs :: next.2)
      | none =>
        match d.fragmentLast with
        | some z =>
          match acc with
          | some a => (.ok (.fragments (a ++ z)), [ktlvs])
          | none => (.error .keyError, [ktlvs])
        | none => (.ok (.complete d), [ktlvs])

/-- HapCharacteristic.write_ktlvs, modelled over the sequence of parsed
accessory rounds, starting from an empty accumulator. -/
def write_ktlvs (ktlvs : List (Nat × List Nat)) (rounds : List KtlvRound) :
    Except KtlvError KtlvOutcome × List (List (Nat × List Nat)) :=
  write_ktlvs_go ktlvs none rounds

/-- A transport-level exception: a bluepy BTLEException (the connectivity
class the retry predicate matches) or any other exception. -/
inductive TransportExc
  | btle
  | other
deriving DecidableEq, Repr

/-- The predicate retry_if_exception_type(bluepy.btle.BTLEException). -/
def is_btle : TransportExc → Bool
  | .btle => true
  | .other => false

/-- Outcome of one retrying call: the wrapped function's value, an
immediately re-raised non-matching exception, or tenacity's RetryError once
the stop condition holds. -/
inductive RetryOutcome (α : Type)
  | success (a : α)
  | raised (e : TransportExc)
  | retryError
deriving DecidableEq, Repr

/-- Trace of one retrying call: its outcome, how many times the before
callback (the reconnect routine, which swallows its own failures) ran, and
how many fixed-delay waits were taken between attempts. -/
structure RetryTrace (α : Type) where
  outcome : RetryOutcome α
  reconnects : Nat
  waits : Nat
deriving DecidableEq, Repr

/-- Modelled from the tenacity library as wired by reconnect_tenacity_retry:
the before callback runs at the start of every attempt; a non-matching
exception is re-raised at once; stop_after_attempt ends the call once
maxAttempts attempts have failed; wait_fixed sleeps between consecutive
attempts.  The list gives each attempt's result in order. -/
def tenacity_go (maxAttempts : Nat) (retryable : TransportExc → Bool) :
    Nat → List (Except TransportExc α) → RetryTrace α
  | _, [] => ⟨.retryError, 0, 0⟩
  | attemptNo, r :: rest =>
    match r with
    | .ok a => ⟨.success a, 1, 0⟩
    | .error e =>
      if retryable e = false then ⟨.raised e, 1, 0⟩
      else if maxAttempts ≤ attemptNo then ⟨.retryError, 1, 0⟩
      else
        let t := tenacity_go maxAttempts retryable (attemptNo + 1) rest
        ⟨t.outcome, t.reconnects + 1, t.waits + 1⟩

/-- The retrying wrapper built by reconnect_tenacity_retry and installed by
_setup_tenacity: retry on BTLEException with the reconnect callback as the
before hook, counting attempts from 1. -/
def reconnect_retry_run (maxAttempts : Nat)
    (attempts : List (Except TransportExc α)) : RetryTrace α :=
  tenacity_go maxAttempts is_btle 1 attempts

end PyHomekit

namespace PyHomekit

/-- C8: encoding a control byte from (continuation, isResponse) and decoding
it recovers exactly that pair — continuation in bit 7, isResponse in bit 1 —
and decoding any byte with a reserved bit (bit 0 or bits 2 through 6) set
fails with MalformedHeader. -/
theorem C8_control_byte_round_trip :
    (∀ (c r : Bool) (t s : Nat),
      HapBlePduResponseHeader.from_data [control_field r c, t, s] =
        .ok ⟨s, t, c, r⟩)
    ∧ (∀ (b t s : Nat), b < 256 →
        (b.testBit 0 = true ∨ b.testBit 2 = true ∨ b.testBit 3 = true ∨
         b.testBit 4 = true ∨ b.testBit 5 = true ∨ b.testBit 6 = true) →
        HapBlePduResponseHeader.from_data [b, t, s] = .error .malformedHeader) := by
  constructor
  · intro c r t s
    cases c <;> cases r <;> rfl
  · intro b t s _ hres
    have hset : reserved_bits_set b = true := by
      simp only [reserved_bits_set, Bool.or_eq_true]
      tauto
    simp [HapBlePduResponseHeader.from_data, hset]

/-- Witness for C8 at concrete bytes: byte 125 has reserved bits set and is
rejected; byte 130 encodes (continuation, isResponse) = (true, true) and
round-trips. -/
theorem C8_control_byte_round_trip_witness :
    HapBlePduResponseHeader.from_data [125, 7, 0] = .error .malformedHeader ∧
    HapBlePduResponseHeader.from_data [130, 7, 0] = .ok ⟨0, 7, true, true⟩ := by
  constructor
  · exact C8_control_byte_round_trip.2 125 7 0 (by decide) (Or.inl (by decide))
  · exact C8_control_byte_round_trip.1 true true 7 0

/-- C2: response validation happens in the fixed order isResponse bit,
transaction id, status code, and only then declared body length; a wrong
transaction id yields TransactionMismatch whatever the status byte says, and
a correct transaction id with a non-success status yields ProtocolStatusError
even when the declared body length is also wrong. -/
theorem C2_validation_order (reqTid c t s : Nat) (rest : List Nat)
    (hres : reserved_bits_set c = false) :
    (c.testBit 1 = false →
      check_read_response reqTid (c :: t :: s :: rest) = .error .invalidResponse)
    ∧ (c.testBit 1 = true → t ≠ reqTid →
      check_read_response reqTid (c :: t :: s :: rest) = .error .transactionMismatch)
    ∧ (c.testBit 1 = true → t = reqTid → s ≠ HapBleStatusCodes.Success →
      check_read_response reqTid (c :: t :: s :: rest) =
        .error (.protocolStatusError s))
    ∧ (∀ b0 b1 body, c.testBit 1 = true → t = reqTid →
      s = HapBleStatusCodes.Success → rest = b0 :: b1 :: body →
      body.length ≠ b0 + 256 * b1 →
      check_read_response reqTid (c :: t :: s :: rest) = .error .lengthMismatch) := by
  refine ⟨?_, ?_, ?_, ?_⟩
  · intro hbit
    simp [check_read_response, HapBlePduResponseHeader.from_data, hres, hbit]
  · intro hbit htid
    simp [check_read_response, HapBlePduResponseHeader.from_data, hres, hbit, htid]
  · intro hbit htid hs
    simp [check_read_response, HapBlePduResponseHeader.from_data, hres, hbit, htid, hs]
  · intro b0 b1 body hbit htid hs hrest hlen
    subst hrest htid hs
    simp [check_read_response, HapBlePduResponseHeader.from_data, hres, hbit, hlen]

/-- Witness for C2 at concrete responses: transaction id 9 against request id
7 fails with TransactionMismatch although the status byte is 1 (non-success),
and transaction id 7 with status 1 fails with ProtocolStatusError although
the declared body length 5 does not match the empty remainder. -/
theorem C2_validation_order_witness :
    check_read_response 7 [2, 9, 1, 0, 0] = .error .transactionMismatch ∧
    check_read_response 7 [2, 7, 1, 5, 0] = .error (.protocolStatusError 1) := by
  constructor
  · exact (C2_validation_order 7 2 9 1 [0, 0] (by decide)).2.1 (by decide) (by decide)
  · exact (C2_validation_order 7 2 7 1 [5, 0] (by decide)).2.2.1 (by decide) rfl
      (by decide)

/-- C10: validation is total only for responses of exactly 3 or at least 5
bytes — fewer than 3 bytes make header decoding fail with the low-level
unpack error rather than MalformedHeader or InvalidResponse, and a 4-byte
response that passes the header checks makes body-length validation fail
with the unpack error rather than LengthMismatch. -/
theorem C10_partial_validation_totality :
    (∀ reqTid resp, resp.length < 3 →
      check_read_response reqTid resp = .error .unpackError)
    ∧ (∀ t c b0, reserved_bits_set c = false → c.testBit 1 = true →
      check_read_response t [c, t, HapBleStatusCodes.Success, b0] =
        .error .unpackError)
    ∧ (∀ reqTid resp, resp.length = 3 ∨ 5 ≤ resp.length →
      check_read_response reqTid resp ≠ .error .unpackError) := by
  refine ⟨?_, ?_, ?_⟩
  · intro reqTid resp h
    match resp with
    | [] => rfl
    | [_] => rfl
    | [_, _] => rfl
    | _ :: _ :: _ :: _ =>
      exfalso; simp only [List.length_cons] at h; omega
  · intro t c b0 hres hbit
    simp [check_read_response, HapBlePduResponseHeader.from_data, hres, hbit]
  · intro reqTid resp h
    match resp with
    | [] => simp at h
    | [_] => simp at h
    | [_, _] => simp at h
    | c :: t :: s :: rest =>
      have hrest : rest = [] ∨ ∃ b0 b1 body, rest = b0 :: b1 :: body := by
        rcases h with h3 | h5
        · left
          match rest with
          | [] => rfl
          | x :: xs => exfalso; simp only [List.length_cons] at h3; omega
        · right
          match rest with
          | [] =>
            exfalso; simp only [List.length_cons, List.length_nil] at h5; omega
          | [b0] =>
            exfalso; simp only [List.length_cons, List.length_nil] at h5; omega
          | b0 :: b1 :: body => exact ⟨b0, b1, body, rfl⟩
      by_cases hr : reserved_bits_set c = true
      · simp [check_read_response, HapBlePduResponseHeader.from_data, hr]
      · by_cases hb : c.testBit 1 = true
        · by_cases ht : t = reqTid
          · by_cases hs : s = HapBleStatusCodes.Success
            · rcases hrest with rfl | ⟨b0, b1, body, rfl⟩
              · simp [check_read_response, HapBlePduResponseHeader.from_data,
                  hr, hb, ht, hs]
              · by_cases hl : body.length ≠ b0 + 256 * b1 <;>
                  simp [check_read_response, HapBlePduResponseHeader.from_data,
                    hr, hb, ht, hs, hl]
            · simp [check_read_response, HapBlePduResponseHeader.from_data,
                hr, hb, ht, hs]
          · simp [check_read_response, HapBlePduResponseHeader.from_data,
              hr, hb, ht]
        · simp [check_read_response, HapBlePduResponseHeader.from_data, hr, hb]

/-- Witness for C10 at concrete responses: a 2-byte read and a 4-byte read
both end in the unpack error. -/
theorem C10_partial_validation_totality_witness :
    check_read_response 7 [2, 7] = .error .unpackError ∧
    check_read_response 7 [2, 7, 0, 9] = .error .unpackError := by
  constructor
  · exact C10_partial_validation_totality.1 7 [2, 7] (by decide)
  · exact C10_partial_validation_totality.2.1 7 2 9 (by decide) (by decide)

/-- The outer fragment loop on an exhausted chunk list returns at once,
whatever the fuel. -/
theorem fragment_loop_nil (fuel : Nat) (h : HapBlePduRequestHeader) :
    fragment_loop fuel h [] = some ([], h) := by
  cases fuel <;> rfl

/-- The inner packing loop takes some prefix of whole chunks: its packed
bytes are the accumulator followed by the flattened taken prefix, and the
leftover is the matching drop. -/
theorem fragment_fill_spec (chunks : List (List Nat)) :
    ∀ acc, ∃ k, k ≤ chunks.length ∧
      fragment_fill chunks acc = (acc ++ (chunks.take k).flatten, chunks.drop k) := by
  induction chunks with
  | nil => intro acc; exact ⟨0, Nat.le_refl 0, by simp [fragment_fill]⟩
  | cons c cs ih =>
    intro acc
    by_cases h : acc.length + c.length < 512
    · obtain ⟨k, hk, heq⟩ := ih (acc ++ c)
      refine ⟨k + 1, Nat.succ_le_succ hk, ?_⟩
      simp only [fragment_fill, if_pos h, heq, List.take_succ_cons,
        List.drop_succ_cons, List.flatten_cons, List.append_assoc]
    · exact ⟨0, Nat.zero_le _, by simp [fragment_fill, h]⟩

/-- When the first chunk fits on its own (under 512 bytes), the packing loop
takes at least that chunk. -/
theorem fragment_fill_takes_head (c : List Nat) (cs : List (List Nat))
    (hlt : c.length < 512) :
    ∃ k, 1 ≤ k ∧ k ≤ (c :: cs).length ∧
      fragment_fill (c :: cs) [] =
        (((c :: cs).take k).flatten, (c :: cs).drop k) := by
  obtain ⟨k, hk, heq⟩ := fragment_fill_spec cs c
  have h0 : ([] : List Nat).length + c.length < 512 := by simpa using hlt
  refine ⟨k + 1, Nat.succ_le_succ (Nat.zero_le _), Nat.succ_le_succ hk, ?_⟩
  have hcons : fragment_fill (c :: cs) [] =
      if ([] : List Nat).length + c.length < 512 then
        fragment_fill cs ([] ++ c)
      else ([], c :: cs) := rfl
  have hstep : fragment_fill (c :: cs) [] = fragment_fill cs c := by
    rw [hcons, if_pos h0, List.nil_append]
  rw [hstep, heq]
  simp [List.take_succ_cons, List.drop_succ_cons, List.flatten_cons]

/-- The outer fragment loop terminates with fuel = number of chunks whenever
every chunk is nonempty and under 512 bytes: the emitted fragments are
exactly the assembly of a partition of the chunk list into nonempty
consecutive groups, and the returned header has its continuation flag set
(unless there was nothing to emit). -/
theorem fragment_loop_total (n : Nat) :
    ∀ chunks : List (List Nat), chunks.length ≤ n →
    (∀ c ∈ chunks, c ≠ [] ∧ c.length < 512) →
    ∀ (header : HapBlePduRequestHeader) (fuel : Nat), chunks.length ≤ fuel →
    ∃ splits : List (List (List Nat)),
      fragment_loop fuel header chunks =
        some (assemble_frags header splits,
          if chunks.isEmpty then header else { header with continuation := true })
      ∧ splits.flatten = chunks ∧ ∀ g ∈ splits, g ≠ [] := by
  induction n with
  | zero =>
    intro chunks hle _ header fuel _
    have hnil : chunks = [] := List.length_eq_zero.mp (Nat.le_zero.mp hle)
    subst hnil
    exact ⟨[], by simp [fragment_loop_nil, assemble_frags], by simp, by simp⟩
  | succ m ih =>
    intro chunks hle hbound header fuel hfuel
    match chunks, hle, hbound, hfuel with
    | [], _, _, _ =>
      exact ⟨[], by simp [fragment_loop_nil, assemble_frags], by simp, by simp⟩
    | c :: cs, hle, hbound, hfuel =>
      obtain ⟨hcne, hclt⟩ := hbound c (by simp)
      obtain ⟨k, hk1, hkle, hfill⟩ := fragment_fill_takes_head c cs hclt
      match fuel, hfuel with
      | f + 1, hfuel =>
        have hrest_len : ((c :: cs).drop k).length ≤ m := by
          simp only [List.length_drop, List.length_cons] at *
          omega
        have hrest_bound : ∀ x ∈ (c :: cs).drop k, x ≠ [] ∧ x.length < 512 :=
          fun x hx => hbound x (List.drop_subset _ _ hx)
        have hrest_fuel : ((c :: cs).drop k).length ≤ f := by
          simp only [List.length_drop, List.length_cons] at *
          omega
        obtain ⟨splits', hloop', hjoin', hne'⟩ :=
          ih ((c :: cs).drop k) hrest_len hrest_bound
            { header with continuation := true } f hrest_fuel
        have hif : (if ((c :: cs).drop k).isEmpty then
              ({ header with continuation := true } : HapBlePduRequestHeader)
            else { { header with continuation := true } with
              continuation := true }) = { header with continuation := true } := by
          split <;> rfl
        rw [hif] at hloop'
        refine ⟨(c :: cs).take k :: splits', ?_, ?_, ?_⟩
        · simp only [fragment_loop, hfill, hloop', assemble_frags,
            List.isEmpty_cons, Bool.false_eq_true, if_false]
        · simp only [List.flatten_cons, hjoin', List.take_append_drop]
        · intro g hg
          rcases List.mem_cons.mp hg with rfl | hgs
          · match k, hk1 with
            | k' + 1, _ => simp
          · exact hne' g hgs

/-- A chunk list holding one chunk that cannot fit makes the packing loop
spin: each pass packs nothing and the chunk list never shrinks, so no fuel
suffices. -/
theorem fragment_loop_stuck (c : List Nat) (hc : ¬ c.length < 512) :
    ∀ fuel header, fragment_loop fuel header [c] = none := by
  intro fuel
  induction fuel with
  | zero => intro header; rfl
  | succ f ihf =>
    intro header
    have hfill : fragment_fill [c] [] = ([], [c]) := by
      simp [fragment_fill, hc]
    simp [fragment_loop, hfill, ihf]

/-- prepare_tlv always yields at least one chunk. -/
theorem prepare_tlv_ne_nil (t : Nat) (v : List Nat) : prepare_tlv t v ≠ [] := by
  show prepare_tlv_fuel t v.length v ≠ []
  cases hf : v.length
  · simp [prepare_tlv_fuel]
  · simp only [prepare_tlv_fuel]
    split <;> simp

/-- Every chunk prepare_tlv_fuel yields is nonempty and, when the value
still fits in fuel + 255 bytes, at most 257 bytes (2 framing bytes plus at
most 255 value bytes). -/
theorem prepare_tlv_fuel_bound (t : Nat) :
    ∀ fuel (v : List Nat), v.length ≤ fuel + 255 →
      ∀ c ∈ prepare_tlv_fuel t fuel v, c ≠ [] ∧ c.length ≤ 257 := by
  intro fuel
  induction fuel with
  | zero =>
    intro v hv c hc
    simp only [prepare_tlv_fuel, List.mem_singleton] at hc
    subst hc
    refine ⟨by simp, ?_⟩
    simp only [List.length_append, List.length_cons, List.length_nil]
    omega
  | succ m ihm =>
    intro v hv c hc
    by_cases h255 : v.length ≤ 255
    · simp only [prepare_tlv_fuel, if_pos h255, List.mem_singleton] at hc
      subst hc
      refine ⟨by simp, ?_⟩
      simp only [List.length_append, List.length_cons, List.length_nil]
      omega
    · simp only [prepare_tlv_fuel, if_neg h255] at hc
      rcases List.mem_cons.mp hc with rfl | hrec
      · refine ⟨by simp, ?_⟩
        simp only [List.length_append, List.length_cons, List.length_nil,
          List.length_take]
        omega
      · refine ihm (v.drop 255) ?_ c hrec
        simp only [List.length_drop]
        omega

/-- Every chunk of a prepared TLV list is nonempty and under 512 bytes. -/
theorem prepared_tlvs_bound (TLVs : List (Nat × List Nat)) :
    ∀ c ∈ prepared_tlvs TLVs, c ≠ [] ∧ c.length < 512 := by
  intro c hc
  simp only [prepared_tlvs, List.mem_flatMap] at hc
  obtain ⟨tv, _, hc⟩ := hc
  obtain ⟨h1, h2⟩ := prepare_tlv_fuel_bound tv.1 tv.2.length tv.2
    (by omega) c hc
  exact ⟨h1, by omega⟩

/-- A nonempty TLV list prepares to a nonempty chunk list. -/
theorem prepared_tlvs_ne_nil (tv : Nat × List Nat)
    (rest : List (Nat × List Nat)) : prepared_tlvs (tv :: rest) ≠ [] := by
  simp only [prepared_tlvs, List.flatMap_cons]
  intro h
  exact prepare_tlv_ne_nil tv.1 tv.2 (List.append_eq_nil.mp h).1

set_option maxRecDepth 10000 in
/-- C1 (code bug): at the failing input — a 5-byte request header and four
TLVs of 168 value bytes each, an oversized PDU — the fragmenter emits a
first fragment of 517 bytes and a second of 174 bytes: the packing loop
bounds only the chunk bytes (strictly below 512) and forgets the header and
2-byte length overhead that the unfragmented branch of the very same
function does count against the 512-byte write limit. -/
theorem C1_first_fragment_exceeds_limit :
    (fragment_tlvs ⟨[0, 0], 1, false, false, 7⟩
        [(1, List.replicate 168 0), (1, List.replicate 168 0),
         (1, List.replicate 168 0), (1, List.replicate 168 0)]).map
      (fun p => p.1.map List.length) = some [517, 174] ∧ ¬ (517 ≤ 512) := by
  exact ⟨by decide, by decide⟩

/-- C4 counterexample: with the empty parameter list — exactly what read
sends — the single transport write carries the bare 5-byte header; the
2-byte zero length field the claim requires is absent. -/
theorem C4_empty_body_counterexample :
    (hap_char_write initState ⟨[0, 0], 1, false, false, 7⟩ [] []).writes =
      [[0, 1, 7, 0, 0]] ∧
    ([0, 1, 7, 0, 0] : List Nat) ≠ [0, 1, 7, 0, 0] ++ pack_u16le 0 := by
  exact ⟨rfl, by decide⟩

/-- C4 (amended): a non-oversized request with a nonempty parameter list is
sent as exactly one transport write of header bytes + 2-byte little-endian
body length + concatenated parameter bytes; with the empty parameter list
(as produced by read) the single write is the bare header with no length
field; and read is write with the empty parameter list. -/
theorem C4_single_write_request (header : HapBlePduRequestHeader)
    (TLVs : List (Nat × List Nat)) :
    (TLVs ≠ [] →
      header.data.length + 2 + (prepared_tlvs TLVs).flatten.length ≤ 512 →
      hap_request header TLVs =
        some ([header.data ++ pack_u16le (prepared_tlvs TLVs).flatten.length ++
          (prepared_tlvs TLVs).flatten], header))
    ∧ hap_request header [] = some ([header.data], header)
    ∧ ∀ st response, hap_char_read st header response =
        hap_char_write st header [] response := by
  refine ⟨?_, rfl, fun st response => rfl⟩
  intro hne hle
  have hTLVs : TLVs.isEmpty = false := by
    cases TLVs
    · exact absurd rfl hne
    · rfl
  simp only [hap_request, hTLVs, Bool.false_eq_true, if_false, fragment_tlvs]
  rw [if_pos hle]

/-- Witness for C4 at a concrete small request: one write of header + length
field + TLV bytes. -/
theorem C4_single_write_request_witness :
    hap_request ⟨[0, 0], 1, false, false, 7⟩ [(1, [9, 9])] =
      some ([(⟨[0, 0], 1, false, false, 7⟩ : HapBlePduRequestHeader).data ++
        pack_u16le (prepared_tlvs [(1, [9, 9])]).flatten.length ++
        (prepared_tlvs [(1, [9, 9])]).flatten],
        ⟨[0, 0], 1, false, false, 7⟩) ∧
    (⟨[0, 0], 1, false, false, 7⟩ : HapBlePduRequestHeader).data ++
        pack_u16le (prepared_tlvs [(1, [9, 9])]).flatten.length ++
        (prepared_tlvs [(1, [9, 9])]).flatten =
      [0, 1, 7, 0, 0] ++ [4, 0] ++ [1, 2, 9, 9] :=
  ⟨(C4_single_write_request ⟨[0, 0], 1, false, false, 7⟩ [(1, [9, 9])]).1
    (by decide) (by decide), by decide⟩

/-- C6 counterexample: on a chunk of 512 bytes — one that cannot fit — the
packing step packs zero chunks, so the fragment the loop then emits carries
empty chunk data while the chunk list never shrinks, and the loop terminates
with no outcome at any fuel; in particular no FragmentTooLarge failure
exists anywhere (ble.py raises none). -/
theorem C6_min_one_chunk_counterexample :
    fragment_fill [List.replicate 512 0] [] = ([], [List.replicate 512 0]) ∧
    fragment_loop 9 ⟨[0, 0], 1, false, false, 7⟩ [List.replicate 512 0] = none := by
  have hlen : ¬ (List.replicate 512 (0 : Nat)).length < 512 := by
    rw [List.length_replicate]
    omega
  constructor
  · have hcons : fragment_fill [List.replicate 512 0] [] =
        if ([] : List Nat).length + (List.replicate 512 (0 : Nat)).length < 512
        then fragment_fill [] ([] ++ List.replicate 512 0)
        else ([], [List.replicate 512 0]) := rfl
    rw [hcons, if_neg (by rw [List.length_nil, List.length_replicate]; omega)]
  · exact fragment_loop_stuck (List.replicate 512 0) hlen 9 _

/-- C6 (amended): for chunk lists whose chunks are each nonempty and under
512 bytes — which the TLV codec contract guarantees, chunks being at most
257 bytes — the fragmenter terminates, packs at least one whole chunk into
every emitted fragment (the fragments assemble a partition of the chunk
list into nonempty consecutive groups), and drops or truncates nothing; a
single chunk that cannot fit is not a FragmentTooLarge failure but an
endless loop of empty fragments (see the counterexample). -/
theorem C6_at_least_one_chunk_per_fragment (header : HapBlePduRequestHeader)
    (chunks : List (List Nat))
    (hbound : ∀ c ∈ chunks, c ≠ [] ∧ c.length < 512) :
    ∃ splits : List (List (List Nat)),
      fragment_loop chunks.length header chunks =
        some (assemble_frags header splits,
          if chunks.isEmpty then header else { header with continuation := true })
      ∧ splits.flatten = chunks ∧ ∀ g ∈ splits, g ≠ [] :=
  fragment_loop_total chunks.length chunks (Nat.le_refl _) hbound header
    chunks.length (Nat.le_refl _)

/-- Witness for C6 on one concrete three-byte chunk. -/
theorem C6_at_least_one_chunk_per_fragment_witness :
    ∃ splits : List (List (List Nat)),
      fragment_loop 1 ⟨[0, 0], 1, false, false, 7⟩ [[1, 1, 5]] =
        some (assemble_frags ⟨[0, 0], 1, false, false, 7⟩ splits,
          if ([[1, 1, 5]] : List (List Nat)).isEmpty then
            ⟨[0, 0], 1, false, false, 7⟩
          else ⟨[0, 0], 1, false, true, 7⟩)
      ∧ splits.flatten = [[1, 1, 5]] ∧ ∀ g ∈ splits, g ≠ [] :=
  C6_at_least_one_chunk_per_fragment ⟨[0, 0], 1, false, false, 7⟩ [[1, 1, 5]]
    (by decide)

/-- C9: fragmenting an oversized PDU mutates the request header object: the
call returns with the header's continuation flag set to true (never reset),
that header thereafter serializes to the two-byte continuation form, and
reusing it for a later operation produces a continuation-form first
transport write. -/
theorem C9_fragmenter_mutates_header (header : HapBlePduRequestHeader)
    (TLVs : List (Nat × List Nat)) (hne : TLVs ≠ [])
    (hover : ¬ (header.data.length + 2 +
      (prepared_tlvs TLVs).flatten.length ≤ 512)) :
    ∃ frags, fragment_tlvs header TLVs =
        some (frags, { header with continuation := true })
      ∧ ({ header with continuation := true } : HapBlePduRequestHeader).data =
          [control_field header.response true, header.transaction_id]
      ∧ hap_request { header with continuation := true } [] =
          some ([[control_field header.response true, header.transaction_id]],
            { header with continuation := true }) := by
  obtain ⟨splits, hloop, _, _⟩ :=
    fragment_loop_total (prepared_tlvs TLVs).length (prepared_tlvs TLVs)
      (Nat.le_refl _) (prepared_tlvs_bound TLVs) header
      (prepared_tlvs TLVs).length (Nat.le_refl _)
  have hnil : prepared_tlvs TLVs ≠ [] := by
    match TLVs, hne with
    | tv :: rest, _ => exact prepared_tlvs_ne_nil tv rest
  have hne' : (prepared_tlvs TLVs).isEmpty = false := by
    cases hp : prepared_tlvs TLVs
    · exact absurd hp hnil
    · rfl
  rw [hne'] at hloop
  simp only [Bool.false_eq_true, if_false] at hloop
  refine ⟨assemble_frags header splits, ?_, rfl, rfl⟩
  simp only [fragment_tlvs]
  rw [if_neg hover]
  exact hloop

set_option maxRecDepth 10000 in
/-- Witness for C9: two 300-byte TLVs make an oversized PDU; afterwards the
header carries continuation = true and serializes to [128, 7]. -/
theorem C9_fragmenter_mutates_header_witness :
    ∃ frags, fragment_tlvs ⟨[0, 0], 1, false, false, 7⟩
        [(1, List.replicate 300 5), (1, List.replicate 300 6)] =
        some (frags, ⟨[0, 0], 1, false, true, 7⟩)
      ∧ (⟨[0, 0], 1, false, true, 7⟩ : HapBlePduRequestHeader).data = [128, 7]
      ∧ hap_request ⟨[0, 0], 1, false, true, 7⟩ [] =
          some ([[128, 7]], ⟨[0, 0], 1, false, true, 7⟩) :=
  C9_fragmenter_mutates_header ⟨[0, 0], 1, false, false, 7⟩
    [(1, List.replicate 300 5), (1, List.replicate 300 6)]
    (by decide) (by decide)

/-- C5 counterexample: a continued response that passes validation is parsed
before the continuation check, so although write fails with NotSupported and
returns no attribute map, the decoded value attribute IS cached on the
characteristic handle. -/
theorem C5_caching_counterexample :
    (hap_char_write initState ⟨[0, 0], 1, false, false, 7⟩ []
        [130, 7, 0, 3, 0, 1, 1, 171]).result = .error .notSupported ∧
    (hap_char_write initState ⟨[0, 0], 1, false, false, 7⟩ []
        [130, 7, 0, 3, 0, 1, 1, 171]).state.cached =
      [("value", .bytes [171])] :=
  ⟨rfl, rfl⟩

/-- C5 (amended): for every response whose header passes validation with the
continuation flag set, write fails with NotSupported and returns no
attribute map, but the body has already been parsed: the handle state
returned is the one mutated by _parse_response, caching every decoded
attribute from the response body. -/
theorem C5_continuation_not_supported (st : HapCharState)
    (header : HapBlePduRequestHeader) (TLVs : List (Nat × List Nat))
    (response : List Nat) (writes : List (List Nat))
    (h' : HapBlePduRequestHeader) (rh : HapBlePduResponseHeader)
    (attrs : List (String × AttrValue)) (st' : HapCharState)
    (hreq : hap_request header TLVs = some (writes, h'))
    (hcheck : check_read_response header.transaction_id response = .ok rh)
    (hcont : rh.continuation = true)
    (hparse : parse_response st response = (.ok attrs, st')) :
    hap_char_write st header TLVs response =
      ⟨.error .notSupported, st', h', writes⟩ := by
  simp only [hap_char_write, hreq, hcheck, hparse, hcont, if_true]

/-- Witness for C5 at a concrete continued response carrying one value
chunk. -/
theorem C5_continuation_not_supported_witness :
    hap_char_write initState ⟨[0, 0], 1, false, false, 7⟩ []
        [130, 7, 0, 3, 0, 1, 1, 171] =
      ⟨.error .notSupported,
        { hap_format_converter := .identity,
          cached := [("value", .bytes [171])] },
        ⟨[0, 0], 1, false, false, 7⟩, [[0, 1, 7, 0, 0]]⟩ :=
  C5_continuation_not_supported initState ⟨[0, 0], 1, false, false, 7⟩ []
    [130, 7, 0, 3, 0, 1, 1, 171] [[0, 1, 7, 0, 0]]
    ⟨[0, 0], 1, false, false, 7⟩ ⟨0, 7, true, true⟩
    [("value", .bytes [171])]
    { hap_format_converter := .identity,
      cached := [("value", .bytes [171])] }
    rfl rfl rfl rfl

/-- C3 counterexample: when the very first accessory round already contains
FragmentLast, the loop raises the KeyError from the missing accumulator
entry instead of returning those fragment bytes. -/
theorem C3_first_round_fragment_last_counterexample :
    (write_ktlvs [(9, [1])] [.withValue { fragmentLast := some [1, 2] }]).1 =
      .error .keyError ∧
    (write_ktlvs [(9, [1])] [.withValue { fragmentLast := some [1, 2] }]).1 ≠
      .ok (.fragments [1, 2]) :=
  ⟨rfl, by decide⟩

/-- The pairing loop with a populated accumulator: a run of FragmentData
rounds followed by one FragmentLast round appends everything in order and
sends one empty FragmentData kTLV in every round. -/
theorem write_ktlvs_go_frag_run (z : List Nat) :
    ∀ (xs : List (List Nat)) (a : List Nat) (ktlvs : List (Nat × List Nat)),
      write_ktlvs_go ktlvs (some a)
        (xs.map (fun x => .withValue { fragmentData := some x }) ++
          [.withValue { fragmentLast := some z }]) =
      (.ok (.fragments (a ++ xs.flatten ++ z)),
        ktlvs :: List.replicate xs.length [(kTLVType_FragmentData_code, [])]) := by
  intro xs
  induction xs with
  | nil =>
    intro a ktlvs
    simp [write_ktlvs_go]
  | cons x xs ih =>
    intro a ktlvs
    simp only [List.map_cons, List.cons_append, write_ktlvs_go, Option.getD,
      List.append_eq]
    rw [ih (a ++ x)]
    simp [List.append_assoc, List.replicate_succ]

/-- C3 (amended): for every accessory sequence with at least one
FragmentData round before the FragmentLast round, the loop appends each
round's bytes to the accumulator in order, sends one empty FragmentData kTLV
in every round after the first, and on FragmentLast appends and returns the
concatenation; a sequence whose very first round contains FragmentLast
instead raises a KeyError, because the accumulator entry is read without a
default there. -/
theorem C3_ktlv_reassembly (ktlvs : List (Nat × List Nat))
    (x : List Nat) (xs : List (List Nat)) (z : List Nat) :
    write_ktlvs ktlvs
        ((x :: xs).map (fun b => .withValue { fragmentData := some b }) ++
          [.withValue { fragmentLast := some z }]) =
      (.ok (.fragments ((x :: xs).flatten ++ z)),
        ktlvs :: List.replicate (x :: xs).length
          [(kTLVType_FragmentData_code, [])]) := by
  simp only [write_ktlvs, List.map_cons, List.cons_append, write_ktlvs_go,
    Option.getD, List.append_eq]
  rw [write_ktlvs_go_frag_run z xs ([] ++ x)]
  simp [List.replicate_succ, List.append_assoc]

/-- Witness for C3: rounds FragmentData = [1], FragmentData = [2],
FragmentLast = [3] assemble to [1, 2, 3], with the empty FragmentData kTLV
sent in rounds two and three. -/
theorem C3_ktlv_reassembly_witness :
    write_ktlvs [(9, [1])]
        [.withValue { fragmentData := some [1] },
         .withValue { fragmentData := some [2] },
         .withValue { fragmentLast := some [3] }] =
      (.ok (.fragments [1, 2, 3]),
        [[(9, [1])], [(kTLVType_FragmentData_code, [])],
         [(kTLVType_FragmentData_code, [])]]) := by
  have h := C3_ktlv_reassembly [(9, [1])] [1] [[2]] [3]
  simpa using h

/-- C7 counterexample: with maxAttempts = 3 and two connectivity failures
followed by success, the operation succeeds but the reconnect callback —
wired as tenacity's before hook — runs three times, before the first attempt
too, not exactly twice as claimed. -/
theorem C7_reconnect_count_counterexample :
    reconnect_retry_run 3 [.error .btle, .error .btle, .ok (0 : Nat)] =
      ⟨.success 0, 3, 2⟩ ∧ (3 : Nat) ≠ 2 :=
  ⟨rfl, by decide⟩

/-- C7 (amended): with maxAttempts = 3, two connectivity failures followed
by success make the operation succeed with the fixed delay taken between
consecutive attempts (two waits), and the reconnect callback runs exactly
three times — before every attempt, including the first, not only before
the two retries; a non-connectivity failure is never retried: one attempt,
no wait, the exception re-raised at once. -/
theorem C7_retry_policy (a : Nat) (e1 e2 e : TransportExc)
    (h1 : is_btle e1 = true) (h2 : is_btle e2 = true)
    (hn : is_btle e = false) (rest : List (Except TransportExc Nat)) :
    reconnect_retry_run 3 [.error e1, .error e2, .ok a] =
      ⟨.success a, 3, 2⟩ ∧
    reconnect_retry_run 3 (.error e :: rest) = ⟨.raised e, 1, 0⟩ := by
  have he1 : e1 = .btle := by
    cases e1
    · rfl
    · simp [is_btle] at h1
  have he2 : e2 = .btle := by
    cases e2
    · rfl
    · simp [is_btle] at h2
  have he : e = .other := by
    cases e
    · simp [is_btle] at hn
    · rfl
  subst he1
  subst he2
  subst he
  exact ⟨rfl, rfl⟩

/-- Witness for C7 at concrete attempt outcomes. -/
theorem C7_retry_policy_witness :
    reconnect_retry_run 3 [.error .btle, .error .btle, .ok (5 : Nat)] =
      ⟨.success 5, 3, 2⟩ ∧
    reconnect_retry_run 3 ([.error .other] : List (Except TransportExc Nat)) =
      ⟨.raised .other, 1, 0⟩ :=
  C7_retry_policy 5 .btle .btle .other rfl rfl rfl []

end PyHomekit
